import Mathlib

/-!
Shallow embedding of the audio-video merger utility (`main.go`).

Pure fragments of the Go source are translated into Lean functions.
Effectful fragments are modelled explicitly: subprocess invocation and
file removal become entries of an event trace, external outcomes
(whether `cmd.Run` or `os.Remove` succeed) become oracle parameters,
and the permit bucket of the scheduler becomes a step relation on an
explicit scheduler state.  Machine panics (index out of range) are
modelled by a dedicated outcome constructor.
-/

namespace AVMerger

/-- The constant `MergedFilePrefix = "[MERGED]"` from `main.go`. -/
def MergedFilePrefix : String := "[MERGED]"

/-- The allow-list `mediaExts = []string{".mp3", ".mp4", ".webm"}` from `main.go`. -/
def mediaExts : List String := [".mp3", ".mp4", ".webm"]

/-- Helper for `goExt`: scans the reversed character list of a path and
returns the reversed extension characters (the suffix starting at the final
dot), or `none` when no dot occurs in the final path element. -/
def extFromRev : List Char → Option (List Char)
  | [] => none
  | c :: cs =>
    if c = '.' then some [c]
    else if c = '/' then none
    else (extFromRev cs).map (fun r => c :: r)

/-- Go `filepath.Ext`: the suffix of the final slash-separated element
beginning at its final dot, or the empty string when there is no dot. -/
def goExt (s : String) : String :=
  match extFromRev s.data.reverse with
  | none => ""
  | some r => String.mk r.reverse

/-- Model of the Go `context.Context` values this program can build:
`context.Background()`, `context.TODO()`, and a cancellable derived
context (`context.WithCancel`), which the source never constructs. -/
inductive GoContext
  | background
  | todo
  | withCancel (parent : GoContext)
deriving DecidableEq

/-- A context admits external cancellation only when it carries a cancel
edge; Go background and TODO contexts have no `Done` channel and can never
be cancelled. -/
def isCancellable : GoContext → Bool
  | GoContext.withCancel _ => true
  | _ => false

/-- Each iteration of the dispatch loop in `mergeAudVid` executes
`ctx := context.Background()`; `mergeAudVid` itself accepts no context
parameter, so this is the context handed to task number `i`. -/
def dispatchTaskCtx (_i : Nat) : GoContext := GoContext.background

/-- The structured failure records a merge task can emit on its error
channel: unrecognized video extension, non-zero subprocess exit, or a
failed `os.Remove`. -/
inductive MergeErr
  | unrecognizedExt (ext path : String)
  | cmdError
  | removeError (path : String)
deriving DecidableEq

/-- Observable events of one merge task: invoking the external tool (with
its context and argument list), emitting an error on the channel, and
successfully removing a file. -/
inductive Event
  | invoke (ctx : GoContext) (tool : String) (args : List String)
  | emitErr (e : MergeErr)
  | removeFile (path : String)
deriving DecidableEq

/-- Number of errors emitted in a trace. -/
def countErrors (tr : List Event) : Nat :=
  (tr.filter fun e => match e with | Event.emitErr _ => true | _ => false).length

/-- Number of subprocess invocations in a trace. -/
def countInvokes (tr : List Event) : Nat :=
  (tr.filter fun e => match e with | Event.invoke _ _ _ => true | _ => false).length

/-- Number of successful file removals in a trace. -/
def countRemoves (tr : List Event) : Nat :=
  (tr.filter fun e => match e with | Event.removeFile _ => true | _ => false).length

/-- The cleanup loop of `mp3Mp4Merger`:
`for _, filepath := range []string{videoPath, mp3Path}` removes each file in
order and returns after sending one error on the first failure.  The oracle
`removeOk p` tells whether `os.Remove(p)` succeeds. -/
def removeLoop (removeOk : String → Bool) : List String → List Event
  | [] => []
  | p :: ps =>
    if removeOk p then Event.removeFile p :: removeLoop removeOk ps
    else [Event.emitErr (MergeErr.removeError p)]

/-- Tail of `mp3Mp4Merger` after the command has been selected: run the
command (`runOk` tells whether it exits zero); on failure emit the command
error and return, on success run the removal loop over video then audio. -/
def mergerAfterCmd (ctx : GoContext) (runOk : Bool) (removeOk : String → Bool)
    (videoPath mp3Path : String) (args : List String) : List Event :=
  Event.invoke ctx "ffmpeg" args ::
    (if runOk then removeLoop removeOk [videoPath, mp3Path]
     else [Event.emitErr MergeErr.cmdError])

/-- Event trace of `mp3Mp4Merger(ctx, errs, videoPath, mp3Path)`: switch on
`filepath.Ext(videoPath)`; `.mp4` and `.webm` select the two ffmpeg argument
lists, any other extension emits one unrecognized-extension error and
returns before any invocation. -/
def mp3Mp4MergerTrace (ctx : GoContext) (runOk : Bool) (removeOk : String → Bool)
    (videoPath mp3Path : String) : List Event :=
  let dstFilename := MergedFilePrefix ++ " " ++ videoPath
  let ext := goExt videoPath
  if ext = ".mp4" then
    mergerAfterCmd ctx runOk removeOk videoPath mp3Path
      ["-i", videoPath, "-i", mp3Path, "-c", "copy", dstFilename]
  else if ext = ".webm" then
    mergerAfterCmd ctx runOk removeOk videoPath mp3Path
      ["-i", videoPath, "-i", mp3Path, "-c:v", "copy", "-c:a", "libvorbis", dstFilename]
  else [Event.emitErr (MergeErr.unrecognizedExt ext videoPath)]

/-- Contexts attached to the subprocess invocations of a trace. -/
def invokeCtxs (tr : List Event) : List GoContext :=
  tr.filterMap fun e => match e with | Event.invoke c _ _ => some c | _ => none

lemma merged_prefix_space : MergedFilePrefix ++ " " = "[MERGED] " := by decide

lemma countInvokes_removeLoop (removeOk : String → Bool) (l : List String) :
    countInvokes (removeLoop removeOk l) = 0 := by
  induction l with
  | nil => rfl
  | cons p ps ih =>
    by_cases h : removeOk p = true
    · simp [removeLoop, h, countInvokes, List.filter] at ih ⊢
      exact ih
    · simp [removeLoop, h, countInvokes, List.filter]

/-- The per-stem filter of the resolver loop in `mergeAudVid`:
`if !slices.Contains(exts, ".mp3") || len(exts) < 2 { delete(...) }`,
so a stem is kept exactly when its extension list contains `".mp3"` and has
at least two entries. -/
def keepStem (exts : List String) : Bool :=
  exts.contains ".mp3" && decide (2 ≤ exts.length)

/-- Go `slices.Index`: index of the first occurrence, `-1` when absent. -/
def goIndex (l : List String) (x : String) : Int :=
  if l.contains x then ((l.indexOf x : Nat) : Int) else -1

/-- The video-extension selection `exts[1-slices.Index(exts, ".mp3")]` of the
resolver loop; `none` models the Go runtime panic when the computed index is
outside the bounds of the slice. -/
def selectVideoExt (exts : List String) : Option String :=
  let i : Int := 1 - goIndex exts ".mp3"
  if h : 0 ≤ i ∧ i.toNat < exts.length then some (exts.get ⟨i.toNat, h.2⟩) else none

/-- Outcome of the resolver loop body for one stem: the stem is deleted from
the mapping, or it is rewritten to the pair `[videoExt, audioExt]`, or the
program panics with an index out of range. -/
inductive ResolveOutcome
  | dropped
  | pair (videoExt audioExt : String)
  | panic
deriving DecidableEq

/-- One iteration of the resolver loop of `mergeAudVid` applied to the
extension list accumulated for one stem. -/
def resolveStem (exts : List String) : ResolveOutcome :=
  if keepStem exts then
    match selectVideoExt exts with
    | some v => ResolveOutcome.pair v ".mp3"
    | none => ResolveOutcome.panic
  else ResolveOutcome.dropped

/-- State of the task scheduler of `mergeAudVid`: `available` permits in the
bucket channel, `running` launched-but-unfinished tasks (each holding one
permit), `dispatched` loop iterations performed, `completed` tasks whose
deferred release has run. -/
structure SchedState where
  available : Nat
  running : Nat
  dispatched : Nat
  completed : Nat
deriving DecidableEq

/-- Steps of the scheduler with capacity `C` and `N` tasks: the dispatch
loop takes a permit from the bucket (`<-scheduled`) and launches a task, or
a running task finishes and its deferred function returns the permit
(`scheduled <- struct{}{}`), whether the merge succeeded (`ok = true`) or
failed — the deferred release is unconditional. -/
inductive SchedStep (C N : Nat) : SchedState → SchedState → Prop
  | dispatch (s : SchedState) (hd : s.dispatched < N) (ha : 0 < s.available) :
      SchedStep C N s ⟨s.available - 1, s.running + 1, s.dispatched + 1, s.completed⟩
  | finish (s : SchedState) (ok : Bool) (hr : 0 < s.running) :
      SchedStep C N s ⟨s.available + 1, s.running - 1, s.dispatched, s.completed + 1⟩

/-- Initial scheduler state: `newBucket(C)` fills the channel with `C`
permits; no task dispatched yet. -/
def initState (C : Nat) : SchedState := ⟨C, 0, 0, 0⟩

/-- States reachable from the initial state by acquire/release steps. -/
def Reachable (C N : Nat) (s : SchedState) : Prop :=
  Relation.ReflTransGen (SchedStep C N) (initState C) s

/-- Decidable test for whether any scheduler step is enabled in a state. -/
def canStep (C N : Nat) (s : SchedState) : Bool :=
  (decide (s.dispatched < N) && decide (0 < s.available)) || decide (0 < s.running)

/-- The concurrency limit computed by `mergeAudVid`:
`nProc := runtime.NumCPU() / 2` (integer division, no minimum clamp). -/
def nProc (numCPU : Nat) : Nat := numCPU / 2

lemma schedStep_canStep {C N : Nat} {s s' : SchedState} (h : SchedStep C N s s') :
    canStep C N s = true := by
  cases h with
  | dispatch hd ha => simp [canStep, hd, ha]
  | finish ok hr => simp [canStep, hr]

lemma reachable_invariant (C N : Nat) (s : SchedState) (h : Reachable C N s) :
    s.available + s.running = C ∧ s.running + s.completed = s.dispatched ∧
      s.dispatched ≤ N := by
  induction h with
  | refl => simp [initState]
  | tail _ hstep ih =>
    cases hstep with
    | dispatch hd ha =>
      refine ⟨?_, ?_, ?_⟩ <;> simp <;> omega
    | finish ok hr =>
      refine ⟨?_, ?_, ?_⟩ <;> simp <;> omega

/-- The single-quote character, written via its code point. -/
def sq : String := String.mk [Char.ofNat 39]

/-- The loop of `concatInputFiles` building `mappedFiles`: each input path
`v` becomes the directive `fmt.Sprintf("file 'file:%s'", v)`. -/
def mappedFiles (files : List String) : List String :=
  files.map fun v => "file " ++ sq ++ "file:" ++ v ++ sq

/-- The function `concatInputFiles`: the manifest contents, the directives
joined by newlines (`strings.Join(mappedFiles, "\n")`). -/
def concatInputFiles (files : List String) : String :=
  String.intercalate "\n" (mappedFiles files)

/-- Result of one `concatVideos` call: the two fatal usage errors
(`log.Fatal` exits the process), the three error returns, or success. -/
inductive ConcatResult
  | fatalNoFiles
  | fatalOneFile
  | createErr
  | writeErr
  | runErr
  | ok
deriving DecidableEq

/-- Filesystem events observable during `concatVideos`: creating a file
(truncating), writing contents, removing a file, and creating a temporary
directory (which this function never does — `tmpFile` is unused by it). -/
inductive FsEvent
  | created (path : String)
  | wrote (path contents : String)
  | removed (path : String)
  | mkdirTemp
deriving DecidableEq

/-- Filesystem state: an association list from path to contents, plus the
list of directories created during the run. -/
structure Fs where
  files : List (String × String)
  dirs : List String
deriving DecidableEq

/-- Contents of the file at `p`, if it exists. -/
def fsGet (fs : Fs) (p : String) : Option String :=
  (fs.files.find? fun q => q.1 == p).map (fun q => q.2)

/-- Create or overwrite the file at `p` with contents `c`. -/
def fsSet (fs : Fs) (p c : String) : Fs :=
  ⟨(p, c) :: fs.files.filter (fun q => !(q.1 == p)), fs.dirs⟩

/-- Remove the file at `p`. -/
def fsRemove (fs : Fs) (p : String) : Fs :=
  ⟨fs.files.filter (fun q => !(q.1 == p)), fs.dirs⟩

/-- The manifest path hard-coded in `concatVideos`: `os.Create("list.txt")`. -/
def manifestPath : String := "list.txt"

/-- The deferred cleanup of `concatVideos`: close the manifest file (when
closing fails, log and return without removing), then `os.Remove` it (when
removing fails, the file stays). -/
def concatDefer (closeOk removeOk : Bool) (fs : Fs) : Fs × List FsEvent :=
  if closeOk then
    if removeOk then (fsRemove fs manifestPath, [FsEvent.removed manifestPath])
    else (fs, [])
  else (fs, [])

/-- The function `concatVideos(ctx)`: check the argument count (Go `switch len(files)`
with fatal cases 0 and 1, rendered as nested ifs), create `"list.txt"` in
the working directory, write the manifest, run the concat command, and run
the deferred cleanup on every return after a successful create.  Oracles
tell whether `os.Create`, `WriteString`, `cmd.Run`, `file.Close` and
`os.Remove` succeed.  Returns the result, the final filesystem state, and
the trace of filesystem events. -/
def concatVideos (createOk writeOk runOk closeOk removeOk : Bool)
    (argv : List String) (fs : Fs) : ConcatResult × Fs × List FsEvent :=
  let files := argv.drop 1
  if files.length = 0 then (ConcatResult.fatalNoFiles, fs, [])
  else if files.length = 1 then (ConcatResult.fatalOneFile, fs, [])
  else if createOk then
    let fs1 := fsSet fs manifestPath ""
    let ev1 : List FsEvent := [FsEvent.created manifestPath]
    if writeOk then
      let fs2 := fsSet fs1 manifestPath (concatInputFiles files)
      let ev2 := ev1 ++ [FsEvent.wrote manifestPath (concatInputFiles files)]
      if runOk then
        let d := concatDefer closeOk removeOk fs2
        (ConcatResult.ok, d.1, ev2 ++ d.2)
      else
        let d := concatDefer closeOk removeOk fs2
        (ConcatResult.runErr, d.1, ev2 ++ d.2)
    else
      let d := concatDefer closeOk removeOk fs1
      (ConcatResult.writeErr, d.1, ev1 ++ d.2)
  else (ConcatResult.createErr, fs, [])

lemma find?_filter_ne_none (l : List (String × String)) (p : String) :
    (l.filter fun q => !(q.1 == p)).find? (fun q => q.1 == p) = none := by
  rw [List.find?_eq_none]
  intro x hx
  have hf := (List.mem_filter.mp hx).2
  simpa using hf

lemma fsGet_fsRemove (fs : Fs) (p : String) : fsGet (fsRemove fs p) p = none := by
  simp [fsGet, fsRemove, find?_filter_ne_none]

lemma fsGet_fsSet (fs : Fs) (p c : String) : fsGet (fsSet fs p c) p = some c := by
  simp [fsGet, fsSet, List.find?]

lemma fsSet_dirs (fs : Fs) (p c : String) : (fsSet fs p c).dirs = fs.dirs := rfl

lemma fsRemove_dirs (fs : Fs) (p : String) : (fsRemove fs p).dirs = fs.dirs := rfl

/-- Claim C1 counterexample: when a stem has accumulated all three
recognized extensions, the resolver keeps it, yet the selected video
extension is not order-independent — the two accumulation orders that start
with the audio extension select different video extensions — and, when the
audio extension was accumulated last, the index `1 - Index(exts, ".mp3")`
is `-1` and the program panics instead of producing a pair. -/
theorem C1_resolver_counterexample :
    keepStem [".mp4", ".webm", ".mp3"] = true ∧
    resolveStem [".mp4", ".webm", ".mp3"] = ResolveOutcome.panic ∧
    resolveStem [".mp3", ".mp4", ".webm"] = ResolveOutcome.pair ".mp4" ".mp3" ∧
    resolveStem [".mp3", ".webm", ".mp4"] = ResolveOutcome.pair ".webm" ".mp3" := by
  decide

/-- Claim C1 (amended): the resolver keeps a stem exactly when its extension
list contains `".mp3"` and has at least two entries, and drops every other
stem; when the kept set consists of the audio extension and exactly one
video extension, the selected pair is (that video extension, `".mp3"`) in
either accumulation order.  (Stems carrying all three recognized extensions
are kept but their selection is order-dependent and can panic, per the
counterexample.) -/
theorem C1_resolver_amended (exts : List String) (v : String)
    (hv : v = ".mp4" ∨ v = ".webm") :
    (keepStem exts = true ↔ ".mp3" ∈ exts ∧ 2 ≤ exts.length) ∧
    resolveStem [".mp3", v] = ResolveOutcome.pair v ".mp3" ∧
    resolveStem [v, ".mp3"] = ResolveOutcome.pair v ".mp3" ∧
    (keepStem exts = false → resolveStem exts = ResolveOutcome.dropped) := by
  refine ⟨?_, ?_, ?_, ?_⟩
  · simp [keepStem, List.contains, List.elem_iff]
  · rcases hv with h | h <;> subst h <;> decide
  · rcases hv with h | h <;> subst h <;> decide
  · intro h
    simp [resolveStem, h]

/-- Witness for C1_resolver_amended at a concrete stem set. -/
theorem C1_resolver_witness :
    (keepStem [".mp3", ".mp4"] = true ↔
      ".mp3" ∈ [".mp3", ".mp4"] ∧ 2 ≤ ([".mp3", ".mp4"] : List String).length) ∧
    resolveStem [".mp3", ".mp4"] = ResolveOutcome.pair ".mp4" ".mp3" ∧
    resolveStem [".mp4", ".mp3"] = ResolveOutcome.pair ".mp4" ".mp3" ∧
    (keepStem [".mp3", ".mp4"] = false →
      resolveStem [".mp3", ".mp4"] = ResolveOutcome.dropped) :=
  C1_resolver_amended [".mp3", ".mp4"] ".mp4" (Or.inl rfl)

/-- Claim C2 is violated by the code: `nProc := runtime.NumCPU() / 2` has no
minimum clamp, so a detected core count of `1` yields a concurrency limit of
`0` instead of `max 1 (1 / 2) = 1`; the permit bucket is then empty and from
the initial state no scheduler step (neither dispatch nor finish) is
enabled, so a run with one resolved pair deadlocks instead of completing. -/
theorem C2_nproc_bug :
    nProc 1 = 0 ∧ max 1 (1 / 2) = 1 ∧
    canStep (nProc 1) 1 (initState (nProc 1)) = false := by
  decide

/-- Claim C3: in every state reachable by the scheduler's acquire/release
steps, for any task count `N` and limit `C ≥ 1`, the number of outstanding
permits (held by running tasks) never exceeds `C`, the bucket accounting
balances (`available + running = C`, so every finished task returned its
permit), `running + completed = dispatched` (each dispatched task releases
exactly once when it finishes), and the finish step releases one permit for
both a succeeded and a failed task. -/
theorem C3_permit_invariant (C N : Nat) (hC : 1 ≤ C) (s : SchedState)
    (h : Reachable C N s) :
    s.running ≤ C ∧ s.available + s.running = C ∧
    s.running + s.completed = s.dispatched ∧ s.dispatched ≤ N ∧
    (∀ ok : Bool, 0 < s.running →
      SchedStep C N s ⟨s.available + 1, s.running - 1, s.dispatched, s.completed + 1⟩) := by
  obtain ⟨h1, h2, h3⟩ := reachable_invariant C N s h
  exact ⟨by omega, h1, h2, h3, fun ok hr => SchedStep.finish s ok hr⟩

/-- Witness for C3_permit_invariant: with `C = 1`, `N = 2`, the state after
one dispatch step is reachable and satisfies the invariant. -/
theorem C3_permit_witness :
    (SchedState.mk 0 1 1 0).running ≤ 1 ∧
    (SchedState.mk 0 1 1 0).available + (SchedState.mk 0 1 1 0).running = 1 ∧
    (SchedState.mk 0 1 1 0).running + (SchedState.mk 0 1 1 0).completed =
      (SchedState.mk 0 1 1 0).dispatched ∧
    (SchedState.mk 0 1 1 0).dispatched ≤ 2 ∧
    (∀ ok : Bool, 0 < (SchedState.mk 0 1 1 0).running →
      SchedStep 1 2 (SchedState.mk 0 1 1 0)
        ⟨(SchedState.mk 0 1 1 0).available + 1, (SchedState.mk 0 1 1 0).running - 1,
         (SchedState.mk 0 1 1 0).dispatched, (SchedState.mk 0 1 1 0).completed + 1⟩) :=
  C3_permit_invariant 1 2 (by decide) (SchedState.mk 0 1 1 0)
    (Relation.ReflTransGen.single
      (SchedStep.dispatch (initState 1) (by decide) (by decide)))

/-- Claim C4: after a successful merge (command exited zero), the task runs
the removal loop over `[videoPath, mp3Path]`; when removing the video fails
the only remaining event is that single error and the audio file is never
touched; when it succeeds the video removal strictly precedes the audio
attempt; and the removal loop reports at most one error. -/
theorem C4_success_cleanup (ctx : GoContext) (removeOk : String → Bool)
    (v a : String) (hext : goExt v = ".mp4" ∨ goExt v = ".webm") :
    (∃ args, mp3Mp4MergerTrace ctx true removeOk v a =
      Event.invoke ctx "ffmpeg" args :: removeLoop removeOk [v, a]) ∧
    (removeOk v = false →
      removeLoop removeOk [v, a] = [Event.emitErr (MergeErr.removeError v)]) ∧
    (removeOk v = true →
      removeLoop removeOk [v, a] = Event.removeFile v :: removeLoop removeOk [a]) ∧
    countErrors (removeLoop removeOk [v, a]) ≤ 1 := by
  refine ⟨?_, ?_, ?_, ?_⟩
  · rcases hext with h | h
    · exact ⟨["-i", v, "-i", a, "-c", "copy", MergedFilePrefix ++ " " ++ v],
        by simp [mp3Mp4MergerTrace, mergerAfterCmd, h]⟩
    · have h4 : ¬(goExt v = ".mp4") := by
        rw [h]; decide
      exact ⟨["-i", v, "-i", a, "-c:v", "copy", "-c:a", "libvorbis",
          MergedFilePrefix ++ " " ++ v],
        by simp [mp3Mp4MergerTrace, mergerAfterCmd, h, h4]⟩
  · intro h
    simp [removeLoop, h]
  · intro h
    simp [removeLoop, h]
  · by_cases hv : removeOk v = true
    · by_cases ha : removeOk a = true <;>
        simp [removeLoop, hv, ha, countErrors, List.filter]
    · simp [removeLoop, Bool.eq_false_iff.mpr hv, countErrors, List.filter]

/-- Witness for C4_success_cleanup: with a removal oracle that always
fails, merging `x.mp4` with `x.mp3` reports the video-removal error only
and attempts no audio removal. -/
theorem C4_cleanup_witness :
    removeLoop (fun _ => false) ["x.mp4", "x.mp3"] =
      [Event.emitErr (MergeErr.removeError "x.mp4")] ∧
    countErrors (removeLoop (fun _ => false) ["x.mp4", "x.mp3"]) ≤ 1 :=
  ⟨(C4_success_cleanup GoContext.background (fun _ => false) "x.mp4" "x.mp3"
      (Or.inl (by decide))).2.1 rfl,
   (C4_success_cleanup GoContext.background (fun _ => false) "x.mp4" "x.mp3"
      (Or.inl (by decide))).2.2.2⟩

lemma invokeCtxs_cons_invoke (c : GoContext) (t : String) (args : List String)
    (tr : List Event) :
    invokeCtxs (Event.invoke c t args :: tr) = c :: invokeCtxs tr := by
  simp [invokeCtxs, List.filterMap_cons]

lemma invokeCtxs_cons_err (e : MergeErr) (tr : List Event) :
    invokeCtxs (Event.emitErr e :: tr) = invokeCtxs tr := by
  simp [invokeCtxs, List.filterMap_cons]

lemma invokeCtxs_cons_remove (p : String) (tr : List Event) :
    invokeCtxs (Event.removeFile p :: tr) = invokeCtxs tr := by
  simp [invokeCtxs, List.filterMap_cons]

lemma invokeCtxs_nil : invokeCtxs [] = [] := rfl

lemma invokeCtxs_removeLoop (removeOk : String → Bool) (l : List String) :
    invokeCtxs (removeLoop removeOk l) = [] := by
  induction l with
  | nil => rfl
  | cons p ps ih =>
    by_cases h : removeOk p = true
    · simpa [removeLoop, h, invokeCtxs_cons_remove] using ih
    · simp [removeLoop, h, invokeCtxs_cons_err, invokeCtxs_nil]

lemma invokeCtxs_trace_eq (ctx : GoContext) (runOk : Bool)
    (removeOk : String → Bool) (v a : String) :
    invokeCtxs (mp3Mp4MergerTrace ctx runOk removeOk v a) = [ctx] ∨
    invokeCtxs (mp3Mp4MergerTrace ctx runOk removeOk v a) = [] := by
  by_cases h4 : goExt v = ".mp4"
  · left
    cases runOk <;>
      simp [mp3Mp4MergerTrace, mergerAfterCmd, h4, invokeCtxs_cons_invoke,
        invokeCtxs_cons_err, invokeCtxs_removeLoop, invokeCtxs_nil]
  · by_cases h5 : goExt v = ".webm"
    · left
      cases runOk <;>
        simp [mp3Mp4MergerTrace, mergerAfterCmd, h4, h5, invokeCtxs_cons_invoke,
          invokeCtxs_cons_err, invokeCtxs_removeLoop, invokeCtxs_nil]
    · right
      simp [mp3Mp4MergerTrace, h4, h5, invokeCtxs_cons_err, invokeCtxs_nil]

/-- Claim C5 counterexample: the context attached to a dispatched task's
subprocess invocation is `context.Background()`, built inside the dispatch
loop, which admits no cancellation — contradicting the claim that a single
cancellation token accepted by the scheduler reaches every in-flight
subprocess (the scheduler accepts none, and the one used cannot be
cancelled). -/
theorem C5_ctx_counterexample :
    isCancellable (dispatchTaskCtx 0) = false ∧
    GoContext.background ∈ invokeCtxs
      (mp3Mp4MergerTrace (dispatchTaskCtx 0) true (fun _ => true) "a.mp4" "a.mp3") := by
  decide

/-- Claim C5 (amended): every dispatch-loop iteration constructs its own
`context.Background()`; all tasks therefore receive the same background
context value, but it is non-cancellable and the scheduler accepts no
external cancellation token, so no cancellation request can reach the
subprocesses. -/
theorem C5_ctx_amended (i j : Nat) (runOk : Bool) (removeOk : String → Bool)
    (v a : String) :
    dispatchTaskCtx i = dispatchTaskCtx j ∧
    ∀ c ∈ invokeCtxs (mp3Mp4MergerTrace (dispatchTaskCtx i) runOk removeOk v a),
      c = GoContext.background ∧ isCancellable c = false := by
  refine ⟨rfl, fun c hc => ?_⟩
  rcases invokeCtxs_trace_eq (dispatchTaskCtx i) runOk removeOk v a with h | h
  · rw [h] at hc
    simp at hc
    subst hc
    exact ⟨rfl, rfl⟩
  · rw [h] at hc
    simp at hc

/-- Witness for C5_ctx_amended at a concrete dispatched task. -/
theorem C5_ctx_witness :
    GoContext.background = GoContext.background ∧
    isCancellable GoContext.background = false :=
  (C5_ctx_amended 0 1 true (fun _ => true) "a.mp4" "a.mp3").2
    GoContext.background (by decide)

/-- Claim C6: on every exit path of `concatVideos` after the argument-count
check — success, manifest-write failure, and external-tool failure — with
the cleanup operations themselves succeeding, the manifest file no longer
exists in the final filesystem state and no directory was created (the
function allocates no temporary directory). -/
theorem C6_concat_cleanup (writeOk runOk : Bool) (argv : List String) (fs : Fs)
    (h : 2 ≤ (argv.drop 1).length) :
    fsGet (concatVideos true writeOk runOk true true argv fs).2.1 manifestPath = none ∧
    (concatVideos true writeOk runOk true true argv fs).2.1.dirs = fs.dirs := by
  have hlen : 3 ≤ argv.length := by
    have h' := h
    simp [List.length_drop] at h'
    omega
  have h0 : ¬(argv.length - 1 = 0) := by omega
  have h1 : ¬(argv.length = 2) := by omega
  cases writeOk <;> cases runOk <;>
    simp [concatVideos, h0, h1, concatDefer, fsGet_fsRemove, fsSet_dirs, fsRemove_dirs]

/-- Witness for C6_concat_cleanup: a failing external invocation on two
inputs, starting from a state that already holds a manifest file. -/
theorem C6_cleanup_witness :
    fsGet (concatVideos true true false true true ["prog", "a.mp4", "b.mp4"]
      (Fs.mk [(manifestPath, "old")] [])).2.1 manifestPath = none ∧
    (concatVideos true true false true true ["prog", "a.mp4", "b.mp4"]
      (Fs.mk [(manifestPath, "old")] [])).2.1.dirs = (Fs.mk [(manifestPath, "old")] []).dirs :=
  C6_concat_cleanup true false ["prog", "a.mp4", "b.mp4"]
    (Fs.mk [(manifestPath, "old")] []) (by decide)

/-- Claim C7: when the video path's extension is neither `".mp4"` nor
`".webm"`, the merge task's whole trace is the single unrecognized-extension
error: exactly one error, no subprocess invocation, no file removal. -/
theorem C7_unrecognized_ext (ctx : GoContext) (runOk : Bool)
    (removeOk : String → Bool) (v a : String)
    (h4 : goExt v ≠ ".mp4") (h5 : goExt v ≠ ".webm") :
    mp3Mp4MergerTrace ctx runOk removeOk v a =
      [Event.emitErr (MergeErr.unrecognizedExt (goExt v) v)] ∧
    countErrors (mp3Mp4MergerTrace ctx runOk removeOk v a) = 1 ∧
    countInvokes (mp3Mp4MergerTrace ctx runOk removeOk v a) = 0 ∧
    countRemoves (mp3Mp4MergerTrace ctx runOk removeOk v a) = 0 := by
  have ht : mp3Mp4MergerTrace ctx runOk removeOk v a =
      [Event.emitErr (MergeErr.unrecognizedExt (goExt v) v)] := by
    simp [mp3Mp4MergerTrace, h4, h5]
  rw [ht]
  exact ⟨rfl, rfl, rfl, rfl⟩

/-- Witness for C7_unrecognized_ext at the video path `clip.avi`. -/
theorem C7_unrecognized_witness :
    mp3Mp4MergerTrace GoContext.background true (fun _ => true) "clip.avi" "clip.mp3" =
      [Event.emitErr (MergeErr.unrecognizedExt (goExt "clip.avi") "clip.avi")] ∧
    countErrors (mp3Mp4MergerTrace GoContext.background true (fun _ => true)
      "clip.avi" "clip.mp3") = 1 ∧
    countInvokes (mp3Mp4MergerTrace GoContext.background true (fun _ => true)
      "clip.avi" "clip.mp3") = 0 ∧
    countRemoves (mp3Mp4MergerTrace GoContext.background true (fun _ => true)
      "clip.avi" "clip.mp3") = 0 :=
  C7_unrecognized_ext GoContext.background true (fun _ => true) "clip.avi" "clip.mp3"
    (by decide) (by decide)

/-- Claim C8: the merge task invokes the tool exactly once, with argument
list `[-i v, -i a, -c, copy, out]` for an `.mp4` video and
`[-i v, -i a, -c:v, copy, -c:a, libvorbis, out]` for a `.webm` video, where
`out` is the string `"[MERGED] "` concatenated with the original video
filename (hence in the same directory for the bare filenames the merge
pipeline produces). -/
theorem C8_invoke_args (ctx : GoContext) (runOk : Bool)
    (removeOk : String → Bool) (v a : String) :
    (goExt v = ".mp4" → ∃ rest, mp3Mp4MergerTrace ctx runOk removeOk v a =
      Event.invoke ctx "ffmpeg" ["-i", v, "-i", a, "-c", "copy", "[MERGED] " ++ v] ::
        rest ∧ countInvokes rest = 0) ∧
    (goExt v = ".webm" → ∃ rest, mp3Mp4MergerTrace ctx runOk removeOk v a =
      Event.invoke ctx "ffmpeg"
        ["-i", v, "-i", a, "-c:v", "copy", "-c:a", "libvorbis", "[MERGED] " ++ v] ::
        rest ∧ countInvokes rest = 0) := by
  constructor
  · intro h
    refine ⟨if runOk then removeLoop removeOk [v, a]
        else [Event.emitErr MergeErr.cmdError], ?_, ?_⟩
    · simp [mp3Mp4MergerTrace, mergerAfterCmd, h, merged_prefix_space]
    · cases runOk
      · simp [countInvokes, List.filter]
      · simpa using countInvokes_removeLoop removeOk [v, a]
  · intro h
    have h4 : ¬(goExt v = ".mp4") := by
      rw [h]; decide
    refine ⟨if runOk then removeLoop removeOk [v, a]
        else [Event.emitErr MergeErr.cmdError], ?_, ?_⟩
    · simp [mp3Mp4MergerTrace, mergerAfterCmd, h, h4, merged_prefix_space]
    · cases runOk
      · simp [countInvokes, List.filter]
      · simpa using countInvokes_removeLoop removeOk [v, a]

/-- Witness for C8_invoke_args on the two recognized extensions. -/
theorem C8_invoke_witness :
    (∃ rest, mp3Mp4MergerTrace GoContext.background true (fun _ => true) "a.mp4" "a.mp3" =
      Event.invoke GoContext.background "ffmpeg"
        ["-i", "a.mp4", "-i", "a.mp3", "-c", "copy", "[MERGED] " ++ "a.mp4"] :: rest ∧
      countInvokes rest = 0) ∧
    (∃ rest, mp3Mp4MergerTrace GoContext.background true (fun _ => true) "b.webm" "b.mp3" =
      Event.invoke GoContext.background "ffmpeg"
        ["-i", "b.webm", "-i", "b.mp3", "-c:v", "copy", "-c:a", "libvorbis",
         "[MERGED] " ++ "b.webm"] :: rest ∧
      countInvokes rest = 0) :=
  ⟨(C8_invoke_args GoContext.background true (fun _ => true) "a.mp4" "a.mp3").1
      (by decide),
   (C8_invoke_args GoContext.background true (fun _ => true) "b.webm" "b.mp3").2
      (by decide)⟩

/-- Claim C9: the manifest consists of exactly one directive per input path
(same length), the directive at every index references the literal path at
that index (order preserved exactly), and the manifest contents are these
directive lines joined by newlines. -/
theorem C9_manifest_lines (files : List String) (i : Nat) :
    (mappedFiles files).length = files.length ∧
    (mappedFiles files).get? i =
      (files.get? i).map (fun v => "file " ++ sq ++ "file:" ++ v ++ sq) ∧
    concatInputFiles files = String.intercalate "\n" (mappedFiles files) := by
  refine ⟨?_, ?_, rfl⟩
  · simp [mappedFiles]
  · simp [mappedFiles]

/-- Claim C10: whenever the argument-count check passes and `os.Create`
succeeds, the first filesystem event is the creation of the fixed relative
path `"list.txt"`; no temporary directory is ever created; and the creation
step truncates, mapping `"list.txt"` to empty contents over any prior
filesystem state. -/
theorem C10_manifest_fixed_path (writeOk runOk closeOk removeOk : Bool)
    (argv : List String) (fs : Fs) (h : 2 ≤ (argv.drop 1).length) :
    (concatVideos true writeOk runOk closeOk removeOk argv fs).2.2.head? =
      some (FsEvent.created manifestPath) ∧
    FsEvent.mkdirTemp ∉ (concatVideos true writeOk runOk closeOk removeOk argv fs).2.2 ∧
    manifestPath = "list.txt" ∧
    fsGet (fsSet fs manifestPath "") manifestPath = some "" := by
  have hlen : 3 ≤ argv.length := by
    have h' := h
    simp [List.length_drop] at h'
    omega
  have h0 : ¬(argv.length - 1 = 0) := by omega
  have h1 : ¬(argv.length = 2) := by omega
  refine ⟨?_, ?_, rfl, fsGet_fsSet fs manifestPath ""⟩
  · cases writeOk <;> cases runOk <;> cases closeOk <;> cases removeOk <;>
      simp [concatVideos, h0, h1, concatDefer]
  · cases writeOk <;> cases runOk <;> cases closeOk <;> cases removeOk <;>
      simp [concatVideos, h0, h1, concatDefer]

/-- Witness for C10_manifest_fixed_path over a state with a pre-existing
manifest file. -/
theorem C10_manifest_witness :
    (concatVideos true true true true true ["prog", "a.mp4", "b.mp4"]
      (Fs.mk [(manifestPath, "old")] [])).2.2.head? =
      some (FsEvent.created manifestPath) ∧
    FsEvent.mkdirTemp ∉ (concatVideos true true true true true ["prog", "a.mp4", "b.mp4"]
      (Fs.mk [(manifestPath, "old")] [])).2.2 ∧
    manifestPath = "list.txt" ∧
    fsGet (fsSet (Fs.mk [(manifestPath, "old")] []) manifestPath "") manifestPath =
      some "" :=
  C10_manifest_fixed_path true true true true ["prog", "a.mp4", "b.mp4"]
    (Fs.mk [(manifestPath, "old")] []) (by decide)

end AVMerger
